import Mathlib

/-!
Verification development for the Synthetic Focus Groups discussion engine.

The group-dynamics transition functions (`calculate_conformity_pressure`,
`calculate_influence`) are embedded from the Python snippets in the product
specification (`src/unnamed/part_001`).  The discussion simulation loop
itself ships in this repository only as a design document (the implementation
`src/discussion/` is not present), so the loop, the speaking decision, the
failure handling and the opinion-leader bookkeeping are modelled from the
spec and marked as such in their doc comments.  The survey submission
endpoint is embedded from `src/validation/survey/functions/api/submit.js`.
-/

namespace SFG

set_option maxRecDepth 8000

/-- Clamp a rational to the closed interval `[lo, hi]`. -/
def clampQ (lo hi x : ℚ) : ℚ := max lo (min hi x)

/-- Discussion phases, from the `DiscussionPhase` enum in `src/CODEX_TASK_3.md`. -/
inductive Phase
  | warmup
  | exploration
  | deepDive
  | reaction
  | synthesis
  deriving DecidableEq, Repr

/-- Message roles, from the `MessageRole` enum in `src/CODEX_TASK_3.md`. -/
inductive Role
  | moderator
  | participant
  | system
  deriving DecidableEq, Repr

/-- A participant profile (spec section 3): immutable, externally supplied.
Trait scores are on the 0-100 scale; the dynamics math uses them normalized
to 0-1 via `extraversionNorm` / `agreeablenessNorm`. -/
structure Persona where
  pid : Nat
  pname : String
  openness : ℚ
  conscientiousness : ℚ
  extraversion : ℚ
  agreeableness : ℚ
  neuroticism : ℚ
  initialValence : ℚ
  conviction : ℚ
  perceivedExpertise : ℚ
  socialDesirability : ℚ
  deriving DecidableEq, Repr

/-- Extraversion trait normalized to 0-1 (spec section 3). -/
def Persona.extraversionNorm (p : Persona) : ℚ := p.extraversion / 100

/-- Agreeableness trait normalized to 0-1 (spec section 3). -/
def Persona.agreeablenessNorm (p : Persona) : ℚ := p.agreeableness / 100

/-- The view of a persona consumed by the group-dynamics snippets of
`src/unnamed/part_001`: all fields already normalized to 0-1, with the
field names the snippets use (`persona.agreeableness`, `persona.conviction`,
`persona.extraversion`, `persona.perceived_expertise`,
`persona.speak_count_ratio`). -/
structure DynView where
  agreeableness : ℚ
  conviction : ℚ
  extraversion : ℚ
  perceived_expertise : ℚ
  speak_count_ratio : ℚ
  deriving DecidableEq, Repr

/-- Conformity pressure, embedded from `calculate_conformity_pressure` in
`src/unnamed/part_001` (lines 208-219):

    pressure = agreement_ratio * persona.agreeableness * CONFORMITY_WEIGHT
    resistance = persona.conviction * (1 - persona.agreeableness)
    return max(0, pressure - resistance)

`CONFORMITY_WEIGHT` is a constant the repository never assigns a value to,
so it is taken here as an explicit argument `CW`. -/
def calculate_conformity_pressure (CW : ℚ) (persona : DynView)
    (agreement_ratio : ℚ) : ℚ :=
  max 0 (agreement_ratio * persona.agreeableness * CW
    - persona.conviction * (1 - persona.agreeableness))

/-- The conformity-pressure formula as the spec states it (section 4.3):
`clamp(agreementRatio * agreeablenessNorm * CONFORMITY_WEIGHT - resistance, 0, 1)`.
Written from the spec's words, to be compared with the code's
`calculate_conformity_pressure`. -/
def spec_conformityPressure (CW : ℚ) (persona : DynView)
    (agreement_ratio : ℚ) : ℚ :=
  clampQ 0 1 (agreement_ratio * persona.agreeableness * CW
    - persona.conviction * (1 - persona.agreeableness))

/-- Influence, embedded from `calculate_influence` in `src/unnamed/part_001`
(lines 224-234):

    influence = persona.extraversion * 0.4
              + persona.perceived_expertise * 0.4
              + persona.speak_count_ratio * 0.2
-/
def calculate_influence (persona : DynView) : ℚ :=
  persona.extraversion * 0.4 + persona.perceived_expertise * 0.4
    + persona.speak_count_ratio * 0.2

/-- Base speaking probability by extraversion tertile.  Modelled from the
spec: `src/discussion/participant.py` is not in the repository; the
`should_speak` docstring in `src/CODEX_TASK_3.md` gives the three
probabilities (high 0.85, medium 0.60, low 0.35) and spec section 4.1 gives
the tertile cutoffs (high >= 70, mid 30-70, low < 30) on the 0-100 trait
scale. -/
def baseSpeakProb (extraversion : ℚ) : ℚ :=
  if 70 ≤ extraversion then 0.85
  else if 30 ≤ extraversion then 0.60
  else 0.35

/-- Speaking probability after the spec 4.1 adjustments: divergence bonus
for a high-conviction participant whose stance opposes the rolling group
mean, recency penalty for having spoken in the immediately preceding round.
Modelled from the spec (the bonus/penalty magnitudes are unspecified there;
they are taken as constants 0.15 and 0.20). -/
def speakProb (p : Persona) (divergent recent : Bool) : ℚ :=
  baseSpeakProb p.extraversion + (if divergent then 0.15 else 0)
    - (if recent then 0.20 else 0)

/-- Speaking decision.  Modelled from the spec (section 4.2 and the
`should_speak` docstring in `src/CODEX_TASK_3.md`): always true when the
participant is directly addressed by name, otherwise a draw from the seeded
random source against `speakProb`. -/
def should_speak (p : Persona) (addressed divergent recent : Bool)
    (draw : ℚ) : Bool :=
  addressed || decide (draw < speakProb p divergent recent)

/-- Mutable per-participant state (spec section 3), owned by the loop. -/
structure ParticipantState where
  psid : Nat
  currentOpinionValence : ℚ
  expressedHistory : List ℚ
  speakCount : Nat
  lastSpokeTurn : Option Nat
  cumulativeInfluenceReceived : ℚ
  deriving DecidableEq, Repr

instance : Inhabited ParticipantState := ⟨⟨0, 0, [], 0, none, 0⟩⟩

/-- Dominant-direction flag of the shared group state (spec section 3). -/
inductive Direction
  | positive
  | negative
  | mixed
  deriving DecidableEq, Repr

/-- Result of the external generation capability (spec sections 6 and 9):
an explicit tagged result instead of error strings. -/
inductive GenResult
  | success (text : String) (sentiment : ℚ)
  | transientFailure
  | fatalFailure
  deriving DecidableEq, Repr

/-- The generation capability interface (spec section 6):
`complete(systemPrompt, userPrompt, temperature, maxTokens) -> result`. -/
def Client : Type := String → String → ℚ → Nat → GenResult

/-- Run configuration (spec section 6 configuration surface, and
`DiscussionConfig` in `src/CODEX_TASK_3.md`). -/
structure Config where
  productConcept : String
  category : String
  personas : List Persona
  phases : List Phase
  questionsPerPhase : Nat
  maxRespondents : Nat
  temperature : ℚ
  maxTokens : Nat
  failureThreshold : Nat
  cascadeFactor : ℚ
  conformityWeight : ℚ
  deriving DecidableEq, Repr

/-- A transcript message (spec section 3 and `DiscussionMessage` in
`src/CODEX_TASK_3.md`).  `speakerId` is `none` for the moderator and for
system messages. -/
structure Message where
  speakerId : Option Nat
  role : Role
  phase : Phase
  turnNumber : Nat
  content : String
  expressedSentiment : ℚ
  rawSentiment : Option ℚ
  repliedTo : Option Nat
  changedMind : Bool
  deriving DecidableEq, Repr

/-- A message minus its turn number; the loop stamps the turn number when
appending, which keeps the turn-counter invariant by construction. -/
structure MsgData where
  speakerId : Option Nat
  role : Role
  phase : Phase
  content : String
  expressedSentiment : ℚ
  rawSentiment : Option ℚ
  repliedTo : Option Nat
  changedMind : Bool
  deriving DecidableEq, Repr

/-- Stamp a turn number onto message data. -/
def MsgData.at (d : MsgData) (t : Nat) : Message :=
  { speakerId := d.speakerId, role := d.role, phase := d.phase,
    turnNumber := t, content := d.content,
    expressedSentiment := d.expressedSentiment,
    rawSentiment := d.rawSentiment, repliedTo := d.repliedTo,
    changedMind := d.changedMind }

/-- The loop state threaded through the whole run.  Modelled from the spec
(sections 3-5): the transcript so far, the global turn counter, one mutable
state per participant, the single seeded pseudo-random source, and the
run-level failure counters. -/
structure RunState where
  messages : List Message
  turn : Nat
  pstates : List (Persona × ParticipantState)
  rng : Nat
  callCount : Nat
  transientCount : Nat
  consecutiveFailures : Nat
  aborted : Bool
  deriving DecidableEq, Repr

/-- The finished transcript (spec section 3): config echo, ordered message
sequence, final per-participant state snapshots. -/
structure Transcript where
  configEcho : Config
  messages : List Message
  finalStates : List ParticipantState
  deriving DecidableEq, Repr

/-- One step of the seeded linear-congruential pseudo-random source.
Modelled from the spec (section 5): a single seeded source threaded through
the run; the concrete generator is not in the repository. -/
def rngNext (s : Nat) : Nat := (1103515245 * s + 12345) % 2147483648

/-- A pseudo-random rational in `[0, 1)` drawn from the current source
state. -/
def rngUnit (s : Nat) : ℚ := ((s % 1000 : Nat) : ℚ) / 1000

/-- Append a message to the transcript, stamping the current turn counter
and advancing it by exactly one (spec section 4.4). -/
def appendMsg (st : RunState) (d : MsgData) : RunState :=
  { st with messages := st.messages ++ [d.at st.turn], turn := st.turn + 1 }

/-- Dynamics view of a participant: normalized traits plus the share of the
run's speaking turns this participant has taken. -/
def dynView (p : Persona) (ps : ParticipantState) (totalSpeaks : Nat) : DynView :=
  { agreeableness := p.agreeablenessNorm, conviction := p.conviction,
    extraversion := p.extraversionNorm,
    perceived_expertise := p.perceivedExpertise,
    speak_count_ratio :=
      if totalSpeaks = 0 then 0 else (ps.speakCount : ℚ) / (totalSpeaks : ℚ) }

/-- Total number of participant speaking turns so far. -/
def totalSpeaks (l : List (Persona × ParticipantState)) : Nat :=
  (l.map (fun e => e.2.speakCount)).sum

/-- Participants that have already spoken. -/
def spokenEntries (l : List (Persona × ParticipantState)) :
    List (Persona × ParticipantState) :=
  l.filter (fun e => 0 < e.2.speakCount)

/-- Opinion-leader selection.  Modelled from the spec (section 4.3): the
participant with maximum `calculate_influence` among exactly those
participants who have already spoken; `none` before anyone has spoken. -/
def opinionLeader (l : List (Persona × ParticipantState)) : Option Nat :=
  ((spokenEntries l).argmax
    (fun e => calculate_influence (dynView e.1 e.2 (totalSpeaks l)))).map
    (fun e => e.1.pid)

/-- Rolling mean of all expressed sentiments so far (0 when nobody has
expressed anything).  Modelled from the spec (section 3 GroupState). -/
def groupMean (l : List (Persona × ParticipantState)) : ℚ :=
  let vals := l.flatMap (fun e => e.2.expressedHistory)
  if vals.length = 0 then 0 else vals.sum / (vals.length : ℚ)

/-- Dominant direction of the group (spec section 3): positive / negative /
mixed, derived from the rolling mean with a 0.1 dead band. -/
def dominantDirection (mean : ℚ) : Direction :=
  if (0.1 : ℚ) < mean then Direction.positive
  else if mean < (-0.1 : ℚ) then Direction.negative
  else Direction.mixed

/-- Initial mutable state created at run start from a persona (spec
section 3); the valence is defensively clamped into `[-1, 1]` per the
InvariantViolation policy of spec section 7. -/
def initPState (p : Persona) : ParticipantState :=
  { psid := p.pid, currentOpinionValence := clampQ (-1) 1 p.initialValence,
    expressedHistory := [], speakCount := 0, lastSpokeTurn := none,
    cumulativeInfluenceReceived := 0 }

/-- Whether the participant spoke within the last eight turns.  Modelled
from the spec (section 4.1 recency penalty: spoke in the immediately
preceding round; the window is a model constant). -/
def isRecent (ps : ParticipantState) (turn : Nat) : Bool :=
  match ps.lastSpokeTurn with
  | none => false
  | some t => decide (turn ≤ t + 8)

/-- Whether a round sentiment shares a dominant direction. -/
def sharesDirection (dir : Direction) (s : ℚ) : Bool :=
  match dir with
  | Direction.positive => decide (0 < s)
  | Direction.negative => decide (s < 0)
  | Direction.mixed => decide (-(0.1 : ℚ) ≤ s ∧ s ≤ (0.1 : ℚ))

/-- Fraction of the prior speakers of the current round sharing the group's
dominant direction (spec section 4.3). -/
def agreementRatioOf (dir : Direction) (round : List ℚ) : ℚ :=
  if round.length = 0 then 0
  else ((round.filter (sharesDirection dir)).length : ℚ) / (round.length : ℚ)

/-- Social-desirability softening (spec section 4.3): when the raw sentiment
opposes the dominant direction, the expressed magnitude is reduced by the
persona's social-desirability-bias factor; otherwise the raw value passes
through.  Modelled from the spec. -/
def soften (dir : Direction) (bias raw : ℚ) : ℚ :=
  if (dir = Direction.positive ∧ raw < 0)
      ∨ (dir = Direction.negative ∧ 0 < raw) then
    raw * (1 - bias)
  else raw

/-- Cascade nudge of a not-yet-spoken participant's raw valence toward the
leader's sentiment (spec section 4.3), with the explicit polarization branch
for low-agreeableness high-conviction participants; every branch is
defensively clamped into `[-1, 1]`.  Modelled from the spec. -/
def cascadeNudge (cascadeFactor : ℚ) (q : Persona) (v leaderSent : ℚ) : ℚ :=
  if q.agreeablenessNorm < 0.3 ∧ 0.7 < q.conviction then
    clampQ (-1) 1 (v - cascadeFactor * (leaderSent - v) * (1 - q.agreeablenessNorm))
  else
    clampQ (-1) 1 (v + cascadeFactor * (leaderSent - v) * q.agreeablenessNorm)

/-- Apply the per-turn state updates to the participant list: the speaker
receives the (already clamped) post-conformity valence `newV` and its
bookkeeping fields; when a cascade fires, every not-yet-spoken other
participant is nudged toward the leader sentiment `ls` through the clamped
`cascadeNudge`.  Modelled from the spec (section 4.3). -/
def dynamicsUpdate (cf : ℚ) (pid : Nat) (newV : ℚ) (turn : Nat)
    (expressed : ℚ) (cascadeOn : Bool) (ls : ℚ)
    (l : List (Persona × ParticipantState)) :
    List (Persona × ParticipantState) :=
  l.map (fun e =>
    if e.1.pid = pid then
      (e.1,
        { e.2 with
          currentOpinionValence := newV,
          speakCount := e.2.speakCount + 1,
          lastSpokeTurn := some turn,
          expressedHistory := e.2.expressedHistory ++ [expressed] })
    else if cascadeOn && decide (e.2.speakCount = 0) then
      (e.1,
        { e.2 with
          currentOpinionValence :=
            cascadeNudge cf e.1 e.2.currentOpinionValence ls,
          cumulativeInfluenceReceived :=
            e.2.cumulativeInfluenceReceived + cf })
    else e)

/-- Process one successful participant response: append the participant
message and apply the group-dynamics updates (conformity shift for the
speaker, cascade nudges for not-yet-spoken others), all valence writes
clamped.  Modelled from the spec (sections 4.2-4.4). -/
def respondSuccess (cfg : Config) (ph : Phase) (p : Persona)
    (ps : ParticipantState) (text : String) (sent : ℚ) (round : List ℚ)
    (st : RunState) : RunState :=
  let tot := totalSpeaks st.pstates
  let mean := groupMean st.pstates
  let dir := dominantDirection mean
  let ratio := agreementRatioOf dir round
  let dv := dynView p ps tot
  let pressure := calculate_conformity_pressure cfg.conformityWeight dv ratio
  let expressed := soften dir p.socialDesirability sent
  let newV := clampQ (-1) 1
    (ps.currentOpinionValence + pressure * (mean - ps.currentOpinionValence))
  let changed := decide ((0.15 : ℚ) < |newV - ps.currentOpinionValence|)
  let leader := opinionLeader st.pstates
  let leaderSent : Option ℚ := leader.bind (fun lid =>
    (st.pstates.find? (fun e => e.1.pid = lid)).bind
      (fun e => e.2.expressedHistory.getLast?))
  let cascadeOn : Bool :=
    match leaderSent with
    | some ls => decide ((0.4 : ℚ) < |ls - mean|)
    | none => false
  let ls := leaderSent.getD 0
  let st1 := appendMsg st
    ⟨some p.pid, Role.participant, ph, text, expressed, some sent, none, changed⟩
  let newStates := dynamicsUpdate cfg.cascadeFactor p.pid newV st.turn
    expressed cascadeOn ls st.pstates
  { st1 with pstates := newStates, consecutiveFailures := 0 }

/-- Abort the run: append one terminal system message stating the abort
reason and freeze the run (spec sections 4.4 and 7).  Modelled from the
spec. -/
def abortRun (ph : Phase) (reason : String) (st : RunState) : RunState :=
  let st1 := appendMsg st ⟨none, Role.system, ph, reason, 0, none, none, false⟩
  { st1 with aborted := true }

/-- Process one selected respondent for the current question (spec section
4.4 failure semantics, modelled from the spec): invoke the generation
capability; on transient failure perform exactly one retry, then skip the
respondent for the round with a system diagnostic message and bump the
run-level counters; past the consecutive-failure threshold, abort; on fatal
failure abort immediately.  The second component of the pair accumulates the
raw sentiments of the speakers of the current round. -/
def processRespondent (cfg : Config) (client : Client) (ph : Phase)
    (q : String) (p : Persona) (acc : RunState × List ℚ) :
    RunState × List ℚ :=
  let st := acc.1
  let round := acc.2
  if st.aborted then acc
  else
    match st.pstates.find? (fun e => e.1.pid = p.pid) with
    | none => acc
    | some e =>
      let sys := "persona: " ++ p.pname
      let r1 := client sys q cfg.temperature cfg.maxTokens
      let st1 := { st with callCount := st.callCount + 1 }
      match r1 with
      | GenResult.success text sent =>
        (respondSuccess cfg ph p e.2 text sent round st1, round ++ [sent])
      | GenResult.fatalFailure =>
        (abortRun ph "aborted: generation failed" st1, round)
      | GenResult.transientFailure =>
        let r2 := client sys q cfg.temperature cfg.maxTokens
        let st2 := { st1 with callCount := st1.callCount + 1 }
        match r2 with
        | GenResult.success text sent =>
          (respondSuccess cfg ph p e.2 text sent round st2, round ++ [sent])
        | GenResult.fatalFailure =>
          (abortRun ph "aborted: generation failed" st2, round)
        | GenResult.transientFailure =>
          let st3 := appendMsg st2
            ⟨none, Role.system, ph,
              "transient failure: skipped " ++ p.pname, 0, none, none, false⟩
          let st4 :=
            { st3 with
              transientCount := st3.transientCount + 1,
              consecutiveFailures := st3.consecutiveFailures + 1 }
          if cfg.failureThreshold < st4.consecutiveFailures then
            (abortRun ph "aborted: generation unavailable" st4, round)
          else (st4, round)

/-- Insert an entry into a list sorted by descending influence (seeded
deterministic order of equals: insertion is stable).  Modelled from the
spec (section 4.4: respondents processed highest-influence first). -/
def insertByInfluence (key : Persona × ParticipantState → ℚ)
    (x : Persona × ParticipantState) :
    List (Persona × ParticipantState) → List (Persona × ParticipantState)
  | [] => [x]
  | y :: ys =>
    if key y < key x then x :: y :: ys else y :: insertByInfluence key x ys

/-- Sort entries by descending influence. -/
def sortByInfluence (key : Persona × ParticipantState → ℚ)
    (l : List (Persona × ParticipantState)) :
    List (Persona × ParticipantState) :=
  l.foldr (insertByInfluence key) []

/-- Pick one entry from a nonempty pool using the random source. -/
def forcePick (pool : List (Persona × ParticipantState)) (r : Nat) :
    List (Persona × ParticipantState) :=
  match pool with
  | [] => []
  | x :: xs =>
    [(x :: xs).get ⟨r % (xs.length + 1), Nat.mod_lt r (Nat.succ_pos xs.length)⟩]

/-- One per-participant selection draw (spec section 4.1): advance the
random source, apply the address / divergence / recency adjustments, and
append the participant when the `should_speak` draw succeeds. -/
def selStep (target : Option Nat) (mean : ℚ) (turn : Nat)
    (acc : List (Persona × ParticipantState) × Nat)
    (e : Persona × ParticipantState) :
    List (Persona × ParticipantState) × Nat :=
  let s' := rngNext acc.2
  let addressed : Bool := decide (target = some e.1.pid)
  let divergent : Bool := decide ((0.7 : ℚ) ≤ e.1.conviction)
    && decide (e.2.currentOpinionValence * mean < 0)
  if should_speak e.1 addressed divergent (isRecent e.2 turn) (rngUnit s')
  then (acc.1 ++ [e], s') else (acc.1, s')

/-- Respondent selection for one question (spec section 4.1, modelled from
the spec): an occasional quiet-participant address, one independent seeded
draw per participant against `should_speak`, a cap at the configured
maximum, ordering by descending influence, and the forced-speaker fallback:
if every draw yields zero speakers, one random non-recent participant is
forced to answer.  Returns the ordered respondents and the advanced random
source. -/
def selectRespondents (cfg : Config) (st : RunState) :
    List (Persona × ParticipantState) × Nat :=
  let mean := groupMean st.pstates
  let s1 := rngNext st.rng
  let target : Option Nat :=
    if rngUnit s1 < (0.3 : ℚ) then
      ((st.pstates.argmin (fun e => e.2.speakCount)).map (fun e => e.1.pid))
    else none
  let drawn := st.pstates.foldl (selStep target mean st.turn) ([], s1)
  let s2 := rngNext drawn.2
  match drawn.1 with
  | [] =>
    let nonRecent := st.pstates.filter (fun e => !(isRecent e.2 st.turn))
    let pool := if nonRecent.isEmpty then st.pstates else nonRecent
    (forcePick pool s2, s2)
  | c :: cs =>
    let tot := totalSpeaks st.pstates
    (sortByInfluence (fun e => calculate_influence (dynView e.1 e.2 tot))
      ((c :: cs).take (min cfg.maxRespondents 6)), s2)

/-- Optional moderator follow-up (spec section 4.1): fires only when the
last message's expressed sentiment deviates from the rolling mean by more
than 0.4, with a 20 percent seeded draw.  Modelled from the spec. -/
def maybeFollowup (ph : Phase) (st : RunState) : RunState :=
  if st.aborted then st
  else
    match st.messages.getLast? with
    | none => st
    | some m =>
      let mean := groupMean st.pstates
      let s' := rngNext st.rng
      if (0.4 : ℚ) < |m.expressedSentiment - mean| ∧ rngUnit s' < (0.2 : ℚ)
      then
        appendMsg { st with rng := s' }
          ⟨none, Role.moderator, ph, "could you say more about that?",
            0, none, none, false⟩
      else { st with rng := s' }

/-- Process one question of a phase (spec section 4.4): append the
moderator's question, select respondents, process them strictly
sequentially, then maybe append a follow-up.  Modelled from the spec. -/
def processQuestion (cfg : Config) (client : Client) (ph : Phase)
    (qIdx : Nat) (st : RunState) : RunState :=
  if st.aborted then st
  else
    let qText := cfg.productConcept ++ " question " ++ toString qIdx
    let sel := selectRespondents cfg st
    let st1 := appendMsg { st with rng := sel.2 }
      ⟨none, Role.moderator, ph, qText, 0, none, none, false⟩
    let res := sel.1.foldl
      (fun acc e => processRespondent cfg client ph qText e.1 acc)
      (st1, ([] : List ℚ))
    maybeFollowup ph res.1

/-- Process one phase: its pre-generated questions in order (spec section
4.4).  Modelled from the spec. -/
def processPhase (cfg : Config) (client : Client) (ph : Phase)
    (st : RunState) : RunState :=
  (List.range cfg.questionsPerPhase).foldl
    (fun s i => processQuestion cfg client ph i s) st

/-- Initial loop state for a run. -/
def initState (cfg : Config) (seed : Nat) : RunState :=
  { messages := [], turn := 0,
    pstates := cfg.personas.map (fun p => (p, initPState p)),
    rng := seed, callCount := 0, transientCount := 0,
    consecutiveFailures := 0, aborted := false }

/-- The whole discussion run: the fixed phase sequence in configured order,
producing the finished transcript (config echo, ordered messages, final
snapshots).  Modelled from the spec (sections 4.4 and 5): every stochastic
decision draws from the single seeded source inside the state, so the run
is a pure function of the generation client, the configuration and the
seed. -/
def runSession (client : Client) (cfg : Config) (seed : Nat) : Transcript :=
  let stF := cfg.phases.foldl (fun s ph => processPhase cfg client ph s)
    (initState cfg seed)
  { configEcho := cfg, messages := stF.messages,
    finalStates := stF.pstates.map (fun e => e.2) }

/-- A tiny deterministic string hash, used by the mock client. -/
def strHash (s : String) : Nat :=
  s.data.foldl (fun h c => (h * 31 + c.toNat) % 1000003) 7

/-- Deterministic mock generation client, from the `MockLLMClient`
description in `src/CODEX_TASK_3.md`: not random, derives a varied response
from a hash of the prompts. -/
def mockClient : Client := fun sys usr _ _ =>
  GenResult.success ("mock response " ++ usr)
    ((((strHash (sys ++ usr) % 21 : Nat) : ℚ) - 10) / 10)

/-- A generation client that always fails transiently (the spec section 8
abort scenario). -/
def alwaysTransient : Client := fun _ _ _ _ => GenResult.transientFailure

/-! ## Invariant machinery -/

/-- The messages of a list carry consecutive turn numbers starting at `n`. -/
def NumberedFrom : Nat → List Message → Prop
  | _, [] => True
  | n, m :: rest => m.turnNumber = n ∧ NumberedFrom (n + 1) rest

/-- Stamp a list of message data with consecutive turn numbers from `n`. -/
def numberFrom : Nat → List MsgData → List Message
  | _, [] => []
  | n, d :: ds => d.at n :: numberFrom (n + 1) ds

/-- Transcript well-formedness: consecutively numbered from 0, and the turn
counter equals the number of appended messages. -/
def Wf (st : RunState) : Prop :=
  NumberedFrom 0 st.messages ∧ st.messages.length = st.turn

/-- `Grows st st'` says `st'` extends `st` by appending consecutively
numbered messages and advancing the turn counter in lockstep. -/
def Grows (st st' : RunState) : Prop :=
  ∃ ds : List MsgData,
    st'.messages = st.messages ++ numberFrom st.turn ds
      ∧ st'.turn = st.turn + ds.length

theorem numberFrom_length (n : Nat) (ds : List MsgData) :
    (numberFrom n ds).length = ds.length := by
  induction ds generalizing n with
  | nil => rfl
  | cons d ds ih => simp [numberFrom, ih]

theorem numberFrom_append (n : Nat) (ds₁ ds₂ : List MsgData) :
    numberFrom n (ds₁ ++ ds₂)
      = numberFrom n ds₁ ++ numberFrom (n + ds₁.length) ds₂ := by
  induction ds₁ generalizing n with
  | nil => simp [numberFrom]
  | cons d ds ih =>
    have h : n + 1 + ds.length = n + (ds.length + 1) := by omega
    calc numberFrom n (d :: ds ++ ds₂)
        = d.at n :: numberFrom (n + 1) (ds ++ ds₂) := rfl
      _ = d.at n
          :: (numberFrom (n + 1) ds ++ numberFrom (n + 1 + ds.length) ds₂) := by
            rw [ih]
      _ = numberFrom n (d :: ds) ++ numberFrom (n + (d :: ds).length) ds₂ := by
            rw [h]
            simp [numberFrom]

theorem numberedFrom_append {n : Nat} {l₁ l₂ : List Message}
    (h₁ : NumberedFrom n l₁) (h₂ : NumberedFrom (n + l₁.length) l₂) :
    NumberedFrom n (l₁ ++ l₂) := by
  induction l₁ generalizing n with
  | nil => simpa using h₂
  | cons m l ih =>
    obtain ⟨hm, hl⟩ := h₁
    refine ⟨hm, ih hl ?_⟩
    simpa [Nat.add_comm, Nat.add_assoc, Nat.add_left_comm] using h₂

theorem numberedFrom_numberFrom (n : Nat) (ds : List MsgData) :
    NumberedFrom n (numberFrom n ds) := by
  induction ds generalizing n with
  | nil => trivial
  | cons d ds ih => exact ⟨rfl, ih (n + 1)⟩

theorem numberedFrom_get {n : Nat} {l : List Message}
    (h : NumberedFrom n l) :
    ∀ i (hi : i < l.length), (l.get ⟨i, hi⟩).turnNumber = n + i := by
  induction l generalizing n with
  | nil => intro i hi; exact absurd hi (by simp)
  | cons m rest ih =>
    intro i hi
    match i with
    | 0 => simpa using h.1
    | j + 1 =>
      have h2 := ih h.2 j (by simpa using hi)
      have h3 : (m :: rest).get ⟨j + 1, hi⟩
          = rest.get ⟨j, by simpa using hi⟩ := rfl
      rw [h3, h2]
      omega

theorem Grows.rfl (st : RunState) : Grows st st :=
  ⟨[], by simp [numberFrom]⟩

theorem Grows.trans {st₁ st₂ st₃ : RunState}
    (h₁ : Grows st₁ st₂) (h₂ : Grows st₂ st₃) : Grows st₁ st₃ := by
  obtain ⟨ds₁, hm₁, ht₁⟩ := h₁
  obtain ⟨ds₂, hm₂, ht₂⟩ := h₂
  refine ⟨ds₁ ++ ds₂, ?_, ?_⟩
  · rw [hm₂, hm₁, numberFrom_append, List.append_assoc, ht₁]
  · rw [ht₂, ht₁, List.length_append]
    omega

theorem grows_appendMsg (st : RunState) (d : MsgData) :
    Grows st (appendMsg st d) :=
  ⟨[d], by simp [appendMsg, numberFrom]⟩

theorem grows_of_same {st st' : RunState}
    (hm : st'.messages = st.messages) (ht : st'.turn = st.turn) :
    Grows st st' :=
  ⟨[], by simp [numberFrom, hm, ht]⟩

theorem Wf.grows {st st' : RunState} (h : Wf st) (hg : Grows st st') :
    Wf st' := by
  obtain ⟨ds, hm, ht⟩ := hg
  obtain ⟨hn, hl⟩ := h
  constructor
  · rw [hm]
    refine numberedFrom_append hn ?_
    rw [Nat.zero_add, hl]
    exact numberedFrom_numberFrom _ _
  · rw [hm, ht, List.length_append, numberFrom_length, hl]

theorem Grows.messagesPrefix {st st' : RunState} (h : Grows st st') :
    st.messages <+: st'.messages := by
  obtain ⟨ds, hm, _⟩ := h
  exact ⟨numberFrom st.turn ds, hm.symm⟩

/-- Fold a step that always relates a state to its successor. -/
theorem foldl_rel {α β : Type} (R : β → β → Prop)
    (hrefl : ∀ b, R b b) (htrans : ∀ a b c, R a b → R b c → R a c)
    (f : β → α → β) (hstep : ∀ b a, R b (f b a)) :
    ∀ (l : List α) (b : β), R b (l.foldl f b) := by
  intro l
  induction l with
  | nil => intro b; exact hrefl b
  | cons x xs ih =>
    intro b
    exact htrans _ _ _ (hstep b x) (ih (f b x))

/-- Fold a step that preserves a predicate. -/
theorem foldl_pres {α β : Type} (P : β → Prop) (f : β → α → β)
    (h : ∀ b a, P b → P (f b a)) :
    ∀ (l : List α) (b : β), P b → P (l.foldl f b) := by
  intro l
  induction l with
  | nil => intro b hb; exact hb
  | cons x xs ih => intro b hb; exact ih (f b x) (h b x hb)

theorem grows_respondSuccess (cfg : Config) (ph : Phase) (p : Persona)
    (ps : ParticipantState) (text : String) (sent : ℚ) (round : List ℚ)
    (st : RunState) :
    Grows st (respondSuccess cfg ph p ps text sent round st) := by
  simp only [respondSuccess]
  exact Grows.trans (grows_appendMsg st _) (grows_of_same rfl rfl)

theorem grows_abortRun (ph : Phase) (reason : String) (st : RunState) :
    Grows st (abortRun ph reason st) := by
  simp only [abortRun]
  exact Grows.trans (grows_appendMsg st _) (grows_of_same rfl rfl)

theorem grows_setRng (st : RunState) (v : Nat) :
    Grows st { st with rng := v } :=
  grows_of_same rfl rfl

theorem grows_bumpCall (st : RunState) (n : Nat) :
    Grows st { st with callCount := n } :=
  grows_of_same rfl rfl

theorem grows_bumpCounts (st : RunState) (a b : Nat) :
    Grows st { st with transientCount := a, consecutiveFailures := b } :=
  grows_of_same rfl rfl

set_option maxRecDepth 4000 in
theorem grows_processRespondent (cfg : Config) (client : Client) (ph : Phase)
    (q : String) (p : Persona) (acc : RunState × List ℚ) :
    Grows acc.1 (processRespondent cfg client ph q p acc).1 := by
  obtain ⟨st, round⟩ := acc
  simp only [processRespondent]
  split
  · exact Grows.rfl _
  · split
    · exact Grows.rfl _
    · split
      · exact Grows.trans (grows_bumpCall st _)
          (grows_respondSuccess _ _ _ _ _ _ _ _)
      · exact Grows.trans (grows_bumpCall st _) (grows_abortRun _ _ _)
      · split
        · exact Grows.trans (grows_bumpCall st _)
            (Grows.trans (grows_bumpCall _ _)
              (grows_respondSuccess _ _ _ _ _ _ _ _))
        · exact Grows.trans (grows_bumpCall st _)
            (Grows.trans (grows_bumpCall _ _) (grows_abortRun _ _ _))
        · split
          · exact Grows.trans (grows_bumpCall st _)
              (Grows.trans (grows_bumpCall _ _)
                (Grows.trans (grows_appendMsg _ _)
                  (Grows.trans (grows_bumpCounts _ _ _) (grows_abortRun _ _ _))))
          · exact Grows.trans (grows_bumpCall st _)
              (Grows.trans (grows_bumpCall _ _)
                (Grows.trans (grows_appendMsg _ _) (grows_bumpCounts _ _ _)))

theorem grows_maybeFollowup (ph : Phase) (st : RunState) :
    Grows st (maybeFollowup ph st) := by
  simp only [maybeFollowup]
  split
  · exact Grows.rfl _
  · split
    · exact Grows.rfl _
    · split
      · exact Grows.trans (grows_setRng st _) (grows_appendMsg _ _)
      · exact grows_setRng st _

set_option maxRecDepth 4000 in
theorem grows_processQuestion (cfg : Config) (client : Client) (ph : Phase)
    (qIdx : Nat) (st : RunState) :
    Grows st (processQuestion cfg client ph qIdx st) := by
  simp only [processQuestion]
  split
  · exact Grows.rfl _
  · refine Grows.trans ?_ (grows_maybeFollowup ph _)
    refine Grows.trans ?_
      (foldl_rel (fun (b b' : RunState × List ℚ) => Grows b.1 b'.1)
        (fun b => Grows.rfl _)
        (fun a b c h₁ h₂ => Grows.trans h₁ h₂) _
        (fun (b : RunState × List ℚ) (a : Persona × ParticipantState) =>
          grows_processRespondent cfg client ph _ a.1 b) _ _)
    exact Grows.trans (grows_setRng st _) (grows_appendMsg _ _)

theorem grows_processPhase (cfg : Config) (client : Client) (ph : Phase)
    (st : RunState) : Grows st (processPhase cfg client ph st) :=
  foldl_rel Grows Grows.rfl (fun _ _ _ h₁ h₂ => Grows.trans h₁ h₂) _
    (fun b a => grows_processQuestion cfg client ph a b) _ st

theorem grows_phases (cfg : Config) (client : Client) (st : RunState) :
    Grows st (cfg.phases.foldl (fun s ph => processPhase cfg client ph s) st) :=
  foldl_rel Grows Grows.rfl (fun _ _ _ h₁ h₂ => Grows.trans h₁ h₂) _
    (fun b a => grows_processPhase cfg client a b) _ st

theorem wf_initState (cfg : Config) (seed : Nat) : Wf (initState cfg seed) :=
  ⟨trivial, rfl⟩

/-- The final loop state of a run is well numbered. -/
theorem wf_run (client : Client) (cfg : Config) (seed : Nat) :
    Wf (cfg.phases.foldl (fun s ph => processPhase cfg client ph s)
      (initState cfg seed)) :=
  (wf_initState cfg seed).grows (grows_phases cfg client (initState cfg seed))

/-! ## Valence invariant -/

theorem clampQ_bounds (lo hi x : ℚ) (h : lo ≤ hi) :
    lo ≤ clampQ lo hi x ∧ clampQ lo hi x ≤ hi :=
  ⟨le_max_left lo _, max_le h (min_le_left hi x)⟩

/-- Every participant's raw valence lies in `[-1, 1]`. -/
def VInv (st : RunState) : Prop :=
  ∀ e ∈ st.pstates,
    -1 ≤ e.2.currentOpinionValence ∧ e.2.currentOpinionValence ≤ 1

theorem vinv_of_eq {st st' : RunState} (h : st'.pstates = st.pstates)
    (hv : VInv st) : VInv st' := by
  intro e he
  exact hv e (h ▸ he)

theorem cascadeNudge_bounds (cf : ℚ) (q : Persona) (v ls : ℚ) :
    -1 ≤ cascadeNudge cf q v ls ∧ cascadeNudge cf q v ls ≤ 1 := by
  unfold cascadeNudge
  split
  · exact clampQ_bounds _ _ _ (by norm_num)
  · exact clampQ_bounds _ _ _ (by norm_num)

theorem dynamicsUpdate_bounds (cf : ℚ) (pid : Nat) (newV : ℚ) (turn : Nat)
    (expressed : ℚ) (cascadeOn : Bool) (ls : ℚ)
    (l : List (Persona × ParticipantState))
    (hl : ∀ e ∈ l,
      -1 ≤ e.2.currentOpinionValence ∧ e.2.currentOpinionValence ≤ 1)
    (hb : -1 ≤ newV ∧ newV ≤ 1) :
    ∀ e ∈ dynamicsUpdate cf pid newV turn expressed cascadeOn ls l,
      -1 ≤ e.2.currentOpinionValence ∧ e.2.currentOpinionValence ≤ 1 := by
  intro e' he'
  simp only [dynamicsUpdate, List.mem_map] at he'
  obtain ⟨e, he, rfl⟩ := he'
  split
  · exact hb
  · split
    · exact cascadeNudge_bounds _ _ _ _
    · exact hl e he

theorem vinv_respondSuccess (cfg : Config) (ph : Phase) (p : Persona)
    (ps : ParticipantState) (text : String) (sent : ℚ) (round : List ℚ)
    (st : RunState) (hv : VInv st) :
    VInv (respondSuccess cfg ph p ps text sent round st) := by
  simp only [respondSuccess, VInv]
  exact dynamicsUpdate_bounds _ _ _ _ _ _ _ _ hv
    (clampQ_bounds _ _ _ (by norm_num))

theorem vinv_abortRun (ph : Phase) (reason : String) (st : RunState)
    (hv : VInv st) : VInv (abortRun ph reason st) :=
  vinv_of_eq rfl hv

set_option maxRecDepth 4000 in
theorem vinv_processRespondent (cfg : Config) (client : Client) (ph : Phase)
    (q : String) (p : Persona) (acc : RunState × List ℚ)
    (hv : VInv acc.1) : VInv (processRespondent cfg client ph q p acc).1 := by
  obtain ⟨st, round⟩ := acc
  simp only [processRespondent]
  split
  · exact hv
  · split
    · exact hv
    · split
      · exact vinv_respondSuccess _ _ _ _ _ _ _ _ (vinv_of_eq rfl hv)
      · exact vinv_abortRun _ _ _ (vinv_of_eq rfl hv)
      · split
        · exact vinv_respondSuccess _ _ _ _ _ _ _ _ (vinv_of_eq rfl hv)
        · exact vinv_abortRun _ _ _ (vinv_of_eq rfl hv)
        · split
          · exact vinv_abortRun _ _ _ (vinv_of_eq rfl (vinv_of_eq rfl hv))
          · exact vinv_of_eq rfl (vinv_of_eq rfl hv)

theorem vinv_maybeFollowup (ph : Phase) (st : RunState) (hv : VInv st) :
    VInv (maybeFollowup ph st) := by
  simp only [maybeFollowup]
  split
  · exact hv
  · split
    · exact hv
    · split
      · intro e he
        exact hv e he
      · intro e he
        exact hv e he

theorem vinv_processQuestion (cfg : Config) (client : Client) (ph : Phase)
    (qIdx : Nat) (st : RunState) (hv : VInv st) :
    VInv (processQuestion cfg client ph qIdx st) := by
  simp only [processQuestion]
  split
  · exact hv
  · refine vinv_maybeFollowup ph _ ?_
    refine foldl_pres (fun (b : RunState × List ℚ) => VInv b.1)
      _ (fun b a hb => vinv_processRespondent cfg client ph _ a.1 b hb) _ _ ?_
    exact vinv_of_eq rfl hv

theorem vinv_processPhase (cfg : Config) (client : Client) (ph : Phase)
    (st : RunState) (hv : VInv st) : VInv (processPhase cfg client ph st) :=
  foldl_pres VInv _
    (fun b a hb => vinv_processQuestion cfg client ph a b hb) _ st hv

theorem vinv_initState (cfg : Config) (seed : Nat) :
    VInv (initState cfg seed) := by
  simp only [initState, VInv]
  intro e he
  simp only [List.mem_map] at he
  obtain ⟨p, _, rfl⟩ := he
  exact clampQ_bounds _ _ _ (by norm_num)

theorem vinv_run (client : Client) (cfg : Config) (seed : Nat) :
    VInv (cfg.phases.foldl (fun s ph => processPhase cfg client ph s)
      (initState cfg seed)) :=
  foldl_pres VInv _
    (fun b a hb => vinv_processPhase cfg client a b hb) _ _
    (vinv_initState cfg seed)

/-! ## Witness fixtures -/

/-- A concrete persona used by witness instantiations. -/
def wPersona : Persona :=
  ⟨1, "W", 50, 50, 80, 60, 40, 0.5, 0.6, 0.7, 0.5⟩

/-- A second concrete persona used by witness instantiations. -/
def wPersonaB : Persona :=
  ⟨2, "X", 40, 60, 20, 30, 70, -0.4, 0.8, 0.3, 0.2⟩

/-- A minimal concrete configuration used by witness instantiations. -/
def wConfig : Config :=
  ⟨"widget", "gadgets", [wPersona], [Phase.warmup], 1, 5, 0.9, 300, 5,
    0.3, 0.5⟩

/-- The spec section 8 abort scenario configuration: full phase list, two
questions per phase, consecutive-failure threshold 5. -/
def demoConfig : Config :=
  ⟨"widget", "gadgets", [wPersona, wPersonaB],
    [Phase.warmup, Phase.exploration, Phase.deepDive, Phase.reaction,
      Phase.synthesis], 2, 5, 0.9, 300, 5, 0.3, 0.5⟩

/-! ## Claims -/

/-- Claim C1: determinism of a run.  The whole simulation is a pure
function of the generation client, the configuration and the seed — every
stochastic decision draws from the single seeded source threaded through
`RunState` — so two executions with identical configuration and identical
seed produce identical transcripts: the same message sequence and the same
final participant-state snapshots. -/
theorem C1_run_determinism (client : Client) (cfg₁ cfg₂ : Config)
    (s₁ s₂ : Nat) (hc : cfg₁ = cfg₂) (hs : s₁ = s₂) :
    runSession client cfg₁ s₁ = runSession client cfg₂ s₂
      ∧ (runSession client cfg₁ s₁).messages
          = (runSession client cfg₂ s₂).messages
      ∧ (runSession client cfg₁ s₁).finalStates
          = (runSession client cfg₂ s₂).finalStates := by
  subst hc
  subst hs
  exact ⟨rfl, rfl, rfl⟩

/-- Witness for C1 at a concrete client, configuration and seed. -/
theorem C1_run_determinism_witness :
    runSession mockClient wConfig 42 = runSession mockClient wConfig 42 :=
  (C1_run_determinism mockClient wConfig wConfig 42 42 rfl rfl).1

/-- Claim C2: turn-counter invariant.  In every transcript produced by a
run, the first appended message has `turnNumber` 0 and every subsequently
appended message — moderator, participant or system alike — has
`turnNumber` exactly one greater than the previous message's. -/
theorem C2_turn_counter (client : Client) (cfg : Config) (seed : Nat) :
    (∀ h0 : 0 < (runSession client cfg seed).messages.length,
      (((runSession client cfg seed).messages.get ⟨0, h0⟩).turnNumber = 0))
    ∧ ∀ i (hi : i + 1 < (runSession client cfg seed).messages.length),
        (((runSession client cfg seed).messages.get ⟨i + 1, hi⟩).turnNumber
          = ((runSession client cfg seed).messages.get
              ⟨i, Nat.lt_of_succ_lt hi⟩).turnNumber + 1) := by
  have hn : NumberedFrom 0 (runSession client cfg seed).messages :=
    (wf_run client cfg seed).1
  have hg := numberedFrom_get hn
  constructor
  · intro h0
    simpa using hg 0 h0
  · intro i hi
    rw [hg (i + 1) hi, hg i (Nat.lt_of_succ_lt hi)]
    omega

/-- Witness for C2 at a concrete client, configuration, seed and index. -/
theorem C2_turn_counter_witness :
    ((runSession mockClient wConfig 42).messages.get
        ⟨0, by with_unfolding_all decide⟩).turnNumber = 0
    ∧ ((runSession mockClient wConfig 42).messages.get
        ⟨1, by with_unfolding_all decide⟩).turnNumber
      = ((runSession mockClient wConfig 42).messages.get
        ⟨0, by with_unfolding_all decide⟩).turnNumber + 1 :=
  ⟨(C2_turn_counter mockClient wConfig 42).1 (by with_unfolding_all decide),
    (C2_turn_counter mockClient wConfig 42).2 0 (by with_unfolding_all decide)⟩

/-- Claim C3: valence-bound invariant.  Every valence-writing update of the
engine goes through the defensive clamp into `[-1, 1]` (first conjunct: the
clamp really confines to the interval; second conjunct: the per-turn state
update preserves the bounds for every participant, whatever was computed),
and consequently in every run, for every participant, the final snapshot's
`currentOpinionValence` lies within `[-1, 1]` (third conjunct). -/
theorem C3_valence_bounds :
    (∀ lo hi x : ℚ, lo ≤ hi → lo ≤ clampQ lo hi x ∧ clampQ lo hi x ≤ hi)
    ∧ (∀ (cf : ℚ) (q : Persona) (v ls : ℚ),
        -1 ≤ cascadeNudge cf q v ls ∧ cascadeNudge cf q v ls ≤ 1)
    ∧ ∀ (client : Client) (cfg : Config) (seed : Nat),
        ∀ s ∈ (runSession client cfg seed).finalStates,
          -1 ≤ s.currentOpinionValence ∧ s.currentOpinionValence ≤ 1 := by
  refine ⟨clampQ_bounds, cascadeNudge_bounds, ?_⟩
  intro client cfg seed s hs
  have hv := vinv_run client cfg seed
  have hm : s ∈ (cfg.phases.foldl (fun s ph => processPhase cfg client ph s)
      (initState cfg seed)).pstates.map (fun e => e.2) := hs
  simp only [List.mem_map] at hm
  obtain ⟨e, he, rfl⟩ := hm
  exact hv e he

/-- Witness for C3 at concrete clamp inputs and a concrete run. -/
theorem C3_valence_bounds_witness :
    ((-1 : ℚ) ≤ clampQ (-1) 1 5 ∧ clampQ (-1) 1 5 ≤ 1)
    ∧ (-1 ≤ ((SFG.runSession SFG.mockClient SFG.wConfig
          42).finalStates.headI).currentOpinionValence
        ∧ ((SFG.runSession SFG.mockClient SFG.wConfig
          42).finalStates.headI).currentOpinionValence ≤ 1) :=
  ⟨C3_valence_bounds.1 (-1) 1 5 (by norm_num),
    C3_valence_bounds.2.2 mockClient wConfig 42
      (runSession mockClient wConfig 42).finalStates.headI
      (by with_unfolding_all decide)⟩

/-- Claim C5 counterexample: the code's `calculate_conformity_pressure`
applies only the lower clamp (`max(0, ...)`), not the upper clamp at 1 the
claim states.  With `CONFORMITY_WEIGHT = 2` (the repository never fixes the
constant), full agreement, full agreeableness and zero conviction, the code
returns 2, which exceeds 1 and differs from the spec's
`clamp(..., 0, 1)` value. -/
theorem C5_conformity_clamp_counterexample :
    calculate_conformity_pressure 2 ⟨1, 0, 0, 0, 0⟩ 1 = 2
    ∧ ¬(calculate_conformity_pressure 2 ⟨1, 0, 0, 0, 0⟩ 1 ≤ 1)
    ∧ spec_conformityPressure 2 ⟨1, 0, 0, 0, 0⟩ 1 = 1 := by
  refine ⟨?_, ?_, ?_⟩ <;>
    norm_num [calculate_conformity_pressure, spec_conformityPressure, clampQ]

/-- Claim C5 (amended): `conformityPressure` equals
`max(0, agreementRatio * agreeablenessNorm * CONFORMITY_WEIGHT -
conviction * (1 - agreeablenessNorm))`: it is never below 0, but the code
has no upper clamp at 1; it coincides with the spec's `clamp(..., 0, 1)`
(and in particular stays at most 1) whenever `CONFORMITY_WEIGHT ≤ 1`. -/
theorem C5_conformity_pressure_amended (CW : ℚ) (persona : DynView)
    (agreement_ratio : ℚ) (h₁ : 0 ≤ agreement_ratio)
    (h₂ : agreement_ratio ≤ 1) (h₃ : 0 ≤ persona.agreeableness)
    (h₄ : persona.agreeableness ≤ 1) (h₅ : 0 ≤ persona.conviction) :
    calculate_conformity_pressure CW persona agreement_ratio
      = max 0 (agreement_ratio * persona.agreeableness * CW
          - persona.conviction * (1 - persona.agreeableness))
    ∧ 0 ≤ calculate_conformity_pressure CW persona agreement_ratio
    ∧ (CW ≤ 1 →
        calculate_conformity_pressure CW persona agreement_ratio
          = spec_conformityPressure CW persona agreement_ratio
        ∧ calculate_conformity_pressure CW persona agreement_ratio ≤ 1) := by
  refine ⟨rfl, le_max_left 0 _, ?_⟩
  intro h₆
  have hpre : agreement_ratio * persona.agreeableness * CW
      - persona.conviction * (1 - persona.agreeableness) ≤ 1 := by
    have hra : 0 ≤ agreement_ratio * persona.agreeableness :=
      mul_nonneg h₁ h₃
    have hres : 0 ≤ persona.conviction * (1 - persona.agreeableness) :=
      mul_nonneg h₅ (by linarith)
    nlinarith
  constructor
  · unfold calculate_conformity_pressure spec_conformityPressure clampQ
    rw [min_eq_right hpre]
  · unfold calculate_conformity_pressure
    exact max_le (by norm_num) hpre

/-- Witness for the amended C5 at a concrete weight, persona view and
agreement fraction. -/
theorem C5_conformity_pressure_amended_witness :
    calculate_conformity_pressure (1 / 2)
        ⟨1 / 2, 1 / 2, 0, 0, 0⟩ (1 / 2)
      = max 0 ((1 / 2 : ℚ) * (1 / 2) * (1 / 2) - 1 / 2 * (1 - 1 / 2))
    ∧ 0 ≤ calculate_conformity_pressure (1 / 2)
        ⟨1 / 2, 1 / 2, 0, 0, 0⟩ (1 / 2)
    ∧ ((1 / 2 : ℚ) ≤ 1 →
        calculate_conformity_pressure (1 / 2)
            ⟨1 / 2, 1 / 2, 0, 0, 0⟩ (1 / 2)
          = spec_conformityPressure (1 / 2)
              ⟨1 / 2, 1 / 2, 0, 0, 0⟩ (1 / 2)
        ∧ calculate_conformity_pressure (1 / 2)
            ⟨1 / 2, 1 / 2, 0, 0, 0⟩ (1 / 2) ≤ 1) :=
  C5_conformity_pressure_amended (1 / 2) ⟨1 / 2, 1 / 2, 0, 0, 0⟩ (1 / 2)
    (by norm_num) (by norm_num) (by norm_num) (by norm_num) (by norm_num)

/-- Claim C6: resistance saturates the pressure floor.  A persona with
agreeableness score 10 (`agreeablenessNorm = 0.1`) and conviction 0.9, in a
round where 6 of 8 prior speakers share the positive dominant direction
(agreement ratio 6/8 = 0.75), has conformity pressure exactly 0 whenever
the pre-clamp pressure term `0.75 * 0.1 * CONFORMITY_WEIGHT` does not
exceed the resistance `0.9 * 0.9 = 0.81` (any weight up to 10.8). -/
theorem C6_resistance_saturates :
    (∀ p : Persona, p.agreeableness = 10 → p.agreeablenessNorm = 0.1)
    ∧ ∀ (CW e x s : ℚ), (6 / 8 : ℚ) * (0.1 : ℚ) * CW ≤ 0.81 →
        calculate_conformity_pressure CW ⟨0.1, 0.9, e, x, s⟩ (6 / 8) = 0 := by
  constructor
  · intro p hp
    unfold Persona.agreeablenessNorm
    rw [hp]
    norm_num
  · intro CW e x s h
    unfold calculate_conformity_pressure
    have hpre : (6 / 8 : ℚ) * (0.1 : ℚ) * CW
        - (0.9 : ℚ) * (1 - (0.1 : ℚ)) ≤ 0 := by
      have : (0.9 : ℚ) * (1 - (0.1 : ℚ)) = 0.81 := by norm_num
      linarith
    exact max_eq_left hpre

/-- Witness for C6 with weight 1 and a concrete persona of agreeableness
score 10. -/
theorem C6_resistance_saturates_witness :
    (⟨9, "Q", 50, 50, 50, 10, 50, 0, 0.9, 0, 0⟩ : Persona).agreeablenessNorm
        = 0.1
    ∧ calculate_conformity_pressure 1 ⟨0.1, 0.9, 0.5, 0.5, 0⟩ (6 / 8) = 0 :=
  ⟨C6_resistance_saturates.1 ⟨9, "Q", 50, 50, 50, 10, 50, 0, 0.9, 0, 0⟩ rfl,
    C6_resistance_saturates.2 1 0.5 0.5 0 (by norm_num)⟩

theorem argmax_is_max {α : Type} (f : α → ℚ) (l : List α) (m : α)
    (hm : l.argmax f = some m) : ∀ a ∈ l, f a ≤ f m := by
  intro a ha
  have hm' : m ∈ l.argmax f := hm
  exact List.le_of_mem_argmax ha hm'

theorem argmax_member {α : Type} (f : α → ℚ) (l : List α) (m : α)
    (hm : l.argmax f = some m) : m ∈ l := by
  have hm' : m ∈ l.argmax f := hm
  exact List.argmax_mem hm'

/-- Claim C7: the influence formula is
`0.4 * extraversionNorm + 0.4 * perceivedExpertise + 0.2 * speakCountRatio`,
and the opinion leader is the id of a participant with maximum influence
among exactly those who have already spoken; it is `none` exactly when
nobody has spoken yet — in particular at run start. -/
theorem C7_influence_and_leader :
    (∀ v : DynView, calculate_influence v
        = 0.4 * v.extraversion + 0.4 * v.perceived_expertise
          + 0.2 * v.speak_count_ratio)
    ∧ (∀ l : List (Persona × ParticipantState),
        opinionLeader l = none ↔ spokenEntries l = [])
    ∧ (∀ (cfg : Config) (seed : Nat),
        opinionLeader (initState cfg seed).pstates = none)
    ∧ ∀ (l : List (Persona × ParticipantState)) (x : Nat),
        opinionLeader l = some x →
          ∃ e ∈ spokenEntries l, e.1.pid = x
            ∧ ∀ e' ∈ spokenEntries l,
                calculate_influence (dynView e'.1 e'.2 (totalSpeaks l))
                  ≤ calculate_influence (dynView e.1 e.2 (totalSpeaks l)) := by
  have hnone : ∀ l : List (Persona × ParticipantState),
      opinionLeader l = none ↔ spokenEntries l = [] := by
    intro l
    unfold opinionLeader
    rw [Option.map_eq_none']
    exact List.argmax_eq_none
  refine ⟨fun v => by unfold calculate_influence; ring, hnone, ?_, ?_⟩
  · intro cfg seed
    rw [hnone]
    unfold spokenEntries
    rw [List.filter_eq_nil_iff]
    intro e he
    simp only [initState, List.mem_map] at he
    obtain ⟨p, _, rfl⟩ := he
    simp [initPState]
  · intro l x h
    unfold opinionLeader at h
    rw [Option.map_eq_some'] at h
    obtain ⟨e, he, hx⟩ := h
    exact ⟨e, argmax_member _ _ _ he, hx, argmax_is_max _ _ _ he⟩

/-- Witness for C7 at a concrete spoken-participant list. -/
theorem C7_influence_and_leader_witness :
    ∃ e ∈ spokenEntries [(wPersona, ⟨1, 0, [0.5], 3, some 2, 0⟩)],
      e.1.pid = 1
        ∧ ∀ e' ∈ spokenEntries [(wPersona, ⟨1, 0, [0.5], 3, some 2, 0⟩)],
            calculate_influence (dynView e'.1 e'.2
              (totalSpeaks [(wPersona, ⟨1, 0, [0.5], 3, some 2, 0⟩)]))
              ≤ calculate_influence (dynView e.1 e.2
                (totalSpeaks [(wPersona, ⟨1, 0, [0.5], 3, some 2, 0⟩)])) :=
  C7_influence_and_leader.2.2.2 [(wPersona, ⟨1, 0, [0.5], 3, some 2, 0⟩)] 1
    (by with_unfolding_all decide)

/-- Claim C8: a participant directly addressed by name always speaks
regardless of the draw; otherwise the decision is a draw against the base
probability from the extraversion tertile — 0.85 for extraversion at least
70, 0.60 for 30 to below 70, 0.35 below 30 — before the divergence and
recency adjustments. -/
theorem C8_speaking_decision :
    (∀ (p : Persona) (divergent recent : Bool) (draw : ℚ),
        should_speak p true divergent recent draw = true)
    ∧ (∀ e : ℚ, 70 ≤ e → baseSpeakProb e = 0.85)
    ∧ (∀ e : ℚ, 30 ≤ e → e < 70 → baseSpeakProb e = 0.60)
    ∧ (∀ e : ℚ, e < 30 → baseSpeakProb e = 0.35)
    ∧ ∀ (p : Persona) (divergent recent : Bool) (draw : ℚ),
        should_speak p false divergent recent draw
          = decide (draw < speakProb p divergent recent) := by
  refine ⟨?_, ?_, ?_, ?_, ?_⟩
  · intro p divergent recent draw
    simp [should_speak]
  · intro e he
    unfold baseSpeakProb
    rw [if_pos he]
  · intro e h30 h70
    unfold baseSpeakProb
    rw [if_neg (by linarith), if_pos h30]
  · intro e he
    unfold baseSpeakProb
    rw [if_neg (by linarith), if_neg (by linarith)]
  · intro p divergent recent draw
    simp [should_speak]

/-- Witness for C8 at concrete personas, tertile representatives and a
concrete draw. -/
theorem C8_speaking_decision_witness :
    should_speak wPersona true false false 0.99 = true
    ∧ baseSpeakProb 80 = 0.85
    ∧ baseSpeakProb 50 = 0.60
    ∧ baseSpeakProb 10 = 0.35 :=
  ⟨C8_speaking_decision.1 wPersona false false 0.99,
    C8_speaking_decision.2.1 80 (by norm_num),
    C8_speaking_decision.2.2.1 50 (by norm_num) (by norm_num),
    C8_speaking_decision.2.2.2.1 10 (by norm_num)⟩

/-! ## No-abort and nonemptiness invariants for successful clients -/

/-- The generation client always succeeds. -/
def SuccOnly (client : Client) : Prop :=
  ∀ sys usr t m, ∃ text sent, client sys usr t m = GenResult.success text sent

theorem aborted_respondSuccess (cfg : Config) (ph : Phase) (p : Persona)
    (ps : ParticipantState) (text : String) (sent : ℚ) (round : List ℚ)
    (st : RunState) :
    (respondSuccess cfg ph p ps text sent round st).aborted = st.aborted :=
  rfl

theorem pstates_respondSuccess (cfg : Config) (ph : Phase) (p : Persona)
    (ps : ParticipantState) (text : String) (sent : ℚ) (round : List ℚ)
    (st : RunState) :
    (respondSuccess cfg ph p ps text sent round st).pstates.length
      = st.pstates.length := by
  simp [respondSuccess, dynamicsUpdate]

theorem na_processRespondent {client : Client} (hS : SuccOnly client)
    (cfg : Config) (ph : Phase) (q : String) (p : Persona)
    (acc : RunState × List ℚ) (hab : acc.1.aborted = false) :
    (processRespondent cfg client ph q p acc).1.aborted = false := by
  obtain ⟨st, round⟩ := acc
  simp only [processRespondent]
  rw [hab]
  simp only [Bool.false_eq_true, if_false]
  split
  · exact hab
  · obtain ⟨text, sent, heq⟩ :=
      hS ("persona: " ++ p.pname) q cfg.temperature cfg.maxTokens
    rw [heq]
    rfl

theorem pstates_processRespondent (cfg : Config) (client : Client)
    (ph : Phase) (q : String) (p : Persona) (acc : RunState × List ℚ) :
    (processRespondent cfg client ph q p acc).1.pstates.length
      = acc.1.pstates.length := by
  obtain ⟨st, round⟩ := acc
  simp only [processRespondent]
  split
  · rfl
  · split
    · rfl
    · split
      · exact pstates_respondSuccess ..
      · rfl
      · split
        · exact pstates_respondSuccess ..
        · rfl
        · split
          · rfl
          · rfl

theorem aborted_maybeFollowup (ph : Phase) (st : RunState) :
    (maybeFollowup ph st).aborted = st.aborted := by
  simp only [maybeFollowup]
  split
  · rfl
  · split
    · rfl
    · split
      · rfl
      · rfl

theorem pstates_maybeFollowup (ph : Phase) (st : RunState) :
    (maybeFollowup ph st).pstates.length = st.pstates.length := by
  simp only [maybeFollowup]
  split
  · rfl
  · split
    · rfl
    · split
      · rfl
      · rfl

theorem na_processQuestion {client : Client} (hS : SuccOnly client)
    (cfg : Config) (ph : Phase) (qIdx : Nat) (st : RunState)
    (hab : st.aborted = false) :
    (processQuestion cfg client ph qIdx st).aborted = false := by
  simp only [processQuestion]
  rw [hab]
  simp only [Bool.false_eq_true, if_false]
  rw [aborted_maybeFollowup]
  exact foldl_pres (fun (b : RunState × List ℚ) => b.1.aborted = false)
    _ (fun b a hb => na_processRespondent hS cfg ph _ a.1 b hb) _ _ rfl

theorem pstates_processQuestion (cfg : Config) (client : Client)
    (ph : Phase) (qIdx : Nat) (st : RunState) :
    (processQuestion cfg client ph qIdx st).pstates.length
      = st.pstates.length := by
  simp only [processQuestion]
  split
  · rfl
  · rw [pstates_maybeFollowup]
    exact foldl_pres
      (fun (b : RunState × List ℚ) => b.1.pstates.length = st.pstates.length)
      _ (fun b a hb =>
        (pstates_processRespondent cfg client ph _ a.1 b).trans hb) _ _ rfl

theorem na_processPhase {client : Client} (hS : SuccOnly client)
    (cfg : Config) (ph : Phase) (st : RunState) (hab : st.aborted = false) :
    (processPhase cfg client ph st).aborted = false :=
  foldl_pres (fun b => b.aborted = false) _
    (fun b a hb => na_processQuestion hS cfg ph a b hb) _ st hab

theorem pstates_processPhase (cfg : Config) (client : Client) (ph : Phase)
    (st : RunState) :
    (processPhase cfg client ph st).pstates.length = st.pstates.length :=
  foldl_pres (fun b => b.pstates.length = st.pstates.length) _
    (fun b a hb => (pstates_processQuestion cfg client ph a b).trans hb) _
    st rfl

/-! ## Selection lemmas -/

theorem selStep_fold_mem (target : Option Nat) (mean : ℚ) (turn : Nat) :
    ∀ (l : List (Persona × ParticipantState))
      (acc : List (Persona × ParticipantState) × Nat)
      (x : Persona × ParticipantState),
      x ∈ (l.foldl (selStep target mean turn) acc).1 → x ∈ acc.1 ∨ x ∈ l := by
  intro l
  induction l with
  | nil => intro acc x h; exact Or.inl h
  | cons e l ih =>
    intro acc x h
    rcases ih (selStep target mean turn acc e) x h with h' | h'
    · simp only [selStep] at h'
      split at h'
      · rcases List.mem_append.mp h' with h'' | h''
        · exact Or.inl h''
        · have hx : x = e := List.mem_singleton.mp h''
          exact Or.inr (hx ▸ List.mem_cons_self e l)
      · exact Or.inl h'
    · exact Or.inr (List.mem_cons_of_mem e h')

theorem insertByInfluence_mem (key : Persona × ParticipantState → ℚ)
    (y : Persona × ParticipantState) :
    ∀ (l : List (Persona × ParticipantState)) (x : Persona × ParticipantState),
      x ∈ insertByInfluence key y l → x = y ∨ x ∈ l := by
  intro l
  induction l with
  | nil =>
    intro x h
    simp only [insertByInfluence] at h
    exact Or.inl (List.mem_singleton.mp h)
  | cons z zs ih =>
    intro x h
    simp only [insertByInfluence] at h
    split at h
    · rcases List.mem_cons.mp h with h1 | h1
      · exact Or.inl h1
      · exact Or.inr h1
    · rcases List.mem_cons.mp h with h1 | h1
      · exact Or.inr (h1 ▸ List.mem_cons_self z zs)
      · rcases ih x h1 with h2 | h2
        · exact Or.inl h2
        · exact Or.inr (List.mem_cons_of_mem z h2)

theorem insertByInfluence_length (key : Persona × ParticipantState → ℚ)
    (y : Persona × ParticipantState) :
    ∀ l : List (Persona × ParticipantState),
      (insertByInfluence key y l).length = l.length + 1 := by
  intro l
  induction l with
  | nil => rfl
  | cons z zs ih =>
    simp only [insertByInfluence]
    split
    · simp
    · simp [ih]

theorem sortByInfluence_mem (key : Persona × ParticipantState → ℚ) :
    ∀ (l : List (Persona × ParticipantState))
      (x : Persona × ParticipantState),
      x ∈ sortByInfluence key l → x ∈ l := by
  intro l
  induction l with
  | nil => intro x h; exact h
  | cons z zs ih =>
    intro x h
    rcases insertByInfluence_mem key z (sortByInfluence key zs) x h with
      h1 | h1
    · exact h1 ▸ List.mem_cons_self z zs
    · exact List.mem_cons_of_mem z (ih x h1)

theorem sortByInfluence_length (key : Persona × ParticipantState → ℚ) :
    ∀ l : List (Persona × ParticipantState),
      (sortByInfluence key l).length = l.length := by
  intro l
  induction l with
  | nil => rfl
  | cons z zs ih =>
    simp only [sortByInfluence, List.foldr_cons]
    rw [insertByInfluence_length]
    simp only [sortByInfluence] at ih
    rw [ih]
    simp

theorem forcePick_mem (pool : List (Persona × ParticipantState)) (r : Nat) :
    ∀ x ∈ forcePick pool r, x ∈ pool := by
  match pool with
  | [] => intro x h; exact absurd h (by simp [forcePick])
  | y :: ys =>
    intro x h
    have hx := List.mem_singleton.mp h
    rw [hx]
    exact List.get_mem _ _ _

theorem forcePick_ne (pool : List (Persona × ParticipantState)) (r : Nat)
    (h : pool ≠ []) : forcePick pool r ≠ [] := by
  match pool with
  | [] => exact absurd rfl h
  | y :: ys => simp [forcePick]

theorem selectRespondents_subset (cfg : Config) (st : RunState) :
    ∀ x ∈ (selectRespondents cfg st).1, x ∈ st.pstates := by
  intro x hx
  simp only [selectRespondents] at hx
  split at hx
  · rename_i heq
    have h1 := forcePick_mem _ _ x hx
    revert h1
    split
    · exact id
    · intro h1
      exact List.filter_subset' _ h1
  · rename_i c cs heq
    have h1 := sortByInfluence_mem _ _ x hx
    have h2 : x ∈ c :: cs := List.take_subset _ _ h1
    rw [← heq] at h2
    rcases selStep_fold_mem _ _ _ _ _ x h2 with h3 | h3
    · exact absurd h3 (by simp)
    · exact h3

theorem selectRespondents_ne (cfg : Config) (st : RunState)
    (hne : st.pstates ≠ []) (hmax : 1 ≤ cfg.maxRespondents) :
    (selectRespondents cfg st).1 ≠ [] := by
  simp only [selectRespondents]
  split
  · apply forcePick_ne
    split
    · exact hne
    · rename_i h
      intro hcon
      exact h (by simp [hcon])
  · rename_i c cs heq
    intro hcon
    have hlen := congrArg List.length hcon
    rw [sortByInfluence_length] at hlen
    simp only [List.length_take, List.length_cons, List.length_nil] at hlen
    omega

/-! ## Every processed question yields a participant message -/

theorem respondSuccess_adds (cfg : Config) (ph : Phase) (p : Persona)
    (ps : ParticipantState) (text : String) (sent : ℚ) (round : List ℚ)
    (st : RunState) :
    ∃ d : MsgData,
      (respondSuccess cfg ph p ps text sent round st).messages
          = st.messages ++ [d.at st.turn]
        ∧ d.role = Role.participant ∧ d.phase = ph :=
  ⟨_, rfl, rfl, rfl⟩

theorem processRespondent_success_adds {client : Client} (hS : SuccOnly client)
    (cfg : Config) (ph : Phase) (q : String) (p : Persona) (st : RunState)
    (round : List ℚ) (hab : st.aborted = false)
    (hfind : (st.pstates.find? (fun e => e.1.pid = p.pid)).isSome = true) :
    ∃ m ∈ (processRespondent cfg client ph q p (st, round)).1.messages,
      m.phase = ph ∧ m.role = Role.participant := by
  obtain ⟨e0, hfind⟩ := Option.isSome_iff_exists.mp hfind
  simp only [processRespondent]
  rw [hab]
  simp only [Bool.false_eq_true, if_false]
  rw [hfind]
  obtain ⟨text, sent, heq⟩ :=
    hS ("persona: " ++ p.pname) q cfg.temperature cfg.maxTokens
  rw [heq]
  obtain ⟨d, hmsg, hrole, hph⟩ := respondSuccess_adds cfg ph p e0.2 text sent
    round { st with callCount := st.callCount + 1 }
  have hm : MsgData.at d ({ st with callCount := st.callCount + 1 }
        : RunState).turn
      ∈ (respondSuccess cfg ph p e0.2 text sent round
          { st with callCount := st.callCount + 1 }).messages := by
    rw [hmsg]
    exact List.mem_append_right _ (List.mem_singleton_self _)
  exact ⟨_, hm, hph, hrole⟩

theorem processQuestion_adds {client : Client} (hS : SuccOnly client)
    (cfg : Config) (ph : Phase) (qIdx : Nat) (st : RunState)
    (hab : st.aborted = false) (hne : st.pstates ≠ [])
    (hmax : 1 ≤ cfg.maxRespondents) :
    ∃ m ∈ (processQuestion cfg client ph qIdx st).messages,
      m.phase = ph ∧ m.role = Role.participant := by
  have hsel := selectRespondents_ne cfg st hne hmax
  simp only [processQuestion]
  rw [if_neg (by simp [hab])]
  cases hL : (selectRespondents cfg st).1 with
  | nil => exact absurd hL hsel
  | cons p0 rest =>
    simp only [List.foldl_cons]
    have hab1 : (appendMsg { st with rng := (selectRespondents cfg st).2 }
        ⟨none, Role.moderator, ph,
          cfg.productConcept ++ " question " ++ toString qIdx, 0, none, none,
          false⟩).aborted = false := hab
    have hp0 : p0 ∈ st.pstates := by
      refine selectRespondents_subset cfg st p0 ?_
      rw [hL]
      exact List.mem_cons_self p0 rest
    have hfind1 : (((appendMsg { st with rng := (selectRespondents cfg st).2 }
        ⟨none, Role.moderator, ph,
          cfg.productConcept ++ " question " ++ toString qIdx, 0, none, none,
          false⟩).pstates.find?
          (fun e => e.1.pid = p0.1.pid)).isSome) = true := by
      refine List.find?_isSome.mpr ⟨p0, hp0, ?_⟩
      simp
    obtain ⟨m, hm, hph, hrole⟩ := processRespondent_success_adds hS cfg ph
      (cfg.productConcept ++ " question " ++ toString qIdx) p0.1
      (appendMsg { st with rng := (selectRespondents cfg st).2 }
        ⟨none, Role.moderator, ph,
          cfg.productConcept ++ " question " ++ toString qIdx, 0, none, none,
          false⟩) [] hab1 hfind1
    have hg : Grows
        (processRespondent cfg client ph
          (cfg.productConcept ++ " question " ++ toString qIdx) p0.1
          ((appendMsg { st with rng := (selectRespondents cfg st).2 }
            ⟨none, Role.moderator, ph,
              cfg.productConcept ++ " question " ++ toString qIdx, 0, none,
              none, false⟩), [])).1
        (List.foldl
          (fun acc e => processRespondent cfg client ph
            (cfg.productConcept ++ " question " ++ toString qIdx) e.1 acc)
          (processRespondent cfg client ph
            (cfg.productConcept ++ " question " ++ toString qIdx) p0.1
            ((appendMsg { st with rng := (selectRespondents cfg st).2 }
              ⟨none, Role.moderator, ph,
                cfg.productConcept ++ " question " ++ toString qIdx, 0, none,
                none, false⟩), [])) rest).1 :=
      foldl_rel (fun (b b' : RunState × List ℚ) => Grows b.1 b'.1)
        (fun b => Grows.rfl _) (fun a b c h₁ h₂ => Grows.trans h₁ h₂) _
        (fun (b : RunState × List ℚ) (a : Persona × ParticipantState) =>
          grows_processRespondent cfg client ph _ a.1 b) _ _
    exact ⟨m, List.IsPrefix.subset
      (Grows.messagesPrefix (grows_maybeFollowup ph _))
      (List.IsPrefix.subset (Grows.messagesPrefix hg) hm), hph, hrole⟩

/-- Claim C4: forced-speaker fallback.  In a run whose generation client
always succeeds (so no abort path fires), with at least one configured
participant, at least one question per phase, and a positive respondent
cap, every configured phase of the finished transcript contains at least
one participant message — in particular in the executions where every
stochastic respondent-selection draw yields zero speakers, because the
selection then forces one random non-recent participant to answer. -/
theorem C4_forced_speaker (client : Client) (cfg : Config) (seed : Nat)
    (hS : SuccOnly client) (hne : cfg.personas ≠ [])
    (hq : 1 ≤ cfg.questionsPerPhase) (hmax : 1 ≤ cfg.maxRespondents) :
    ∀ ph ∈ cfg.phases, ∃ m ∈ (runSession client cfg seed).messages,
      m.phase = ph ∧ m.role = Role.participant := by
  intro ph hph
  obtain ⟨l₁, l₂, hsplit⟩ := List.append_of_mem hph
  show ∃ m ∈ (cfg.phases.foldl (fun s ph => processPhase cfg client ph s)
      (initState cfg seed)).messages, m.phase = ph ∧ m.role = Role.participant
  rw [hsplit, List.foldl_append, List.foldl_cons]
  generalize hstA : List.foldl (fun s ph => processPhase cfg client ph s)
    (initState cfg seed) l₁ = stA
  have habA : stA.aborted = false :=
    hstA ▸ foldl_pres (fun b => b.aborted = false) _
      (fun b a hb => na_processPhase hS cfg a b hb) l₁ _ rfl
  have hneA : stA.pstates ≠ [] := by
    have hlen : stA.pstates.length = (initState cfg seed).pstates.length :=
      hstA ▸ foldl_pres
        (fun b => b.pstates.length = (initState cfg seed).pstates.length) _
        (fun b a hb => (pstates_processPhase cfg client a b).trans hb) l₁ _ rfl
    have hinit : (initState cfg seed).pstates.length = cfg.personas.length := by
      simp [initState]
    have hp : 0 < cfg.personas.length := List.length_pos.mpr hne
    intro hcon
    rw [hcon] at hlen
    simp only [List.length_nil] at hlen
    omega
  obtain ⟨k, hk⟩ : ∃ k, cfg.questionsPerPhase = k + 1 :=
    ⟨cfg.questionsPerPhase - 1, by omega⟩
  have hphase : ∃ m ∈ (processPhase cfg client ph stA).messages,
      m.phase = ph ∧ m.role = Role.participant := by
    simp only [processPhase, hk, List.range_succ_eq_map, List.foldl_cons]
    obtain ⟨m, hm, h1, h2⟩ := processQuestion_adds hS cfg ph 0 stA habA
      hneA hmax
    have hg : Grows (processQuestion cfg client ph 0 stA)
        (List.foldl (fun s i => processQuestion cfg client ph i s)
          (processQuestion cfg client ph 0 stA)
          (List.map Nat.succ (List.range k))) :=
      foldl_rel Grows Grows.rfl (fun _ _ _ h₁ h₂ => Grows.trans h₁ h₂) _
        (fun b a => grows_processQuestion cfg client ph a b) _ _
    exact ⟨m, List.IsPrefix.subset (Grows.messagesPrefix hg) hm, h1, h2⟩
  obtain ⟨m, hm, h1, h2⟩ := hphase
  have hg2 : Grows (processPhase cfg client ph stA)
      (List.foldl (fun s ph => processPhase cfg client ph s)
        (processPhase cfg client ph stA) l₂) :=
    foldl_rel Grows Grows.rfl (fun _ _ _ h₁ h₂ => Grows.trans h₁ h₂) _
      (fun b a => grows_processPhase cfg client a b) _ _
  exact ⟨m, List.IsPrefix.subset (Grows.messagesPrefix hg2) hm, h1, h2⟩

/-- The deterministic mock client always succeeds. -/
theorem mockClient_succOnly : SuccOnly mockClient :=
  fun _ _ _ _ => ⟨_, _, rfl⟩

/-- Witness for C4 at a concrete client, configuration, seed and phase. -/
theorem C4_forced_speaker_witness :
    ∃ m ∈ (runSession mockClient wConfig 42).messages,
      m.phase = Phase.warmup ∧ m.role = Role.participant :=
  C4_forced_speaker mockClient wConfig 42 mockClient_succOnly
    (by with_unfolding_all decide) (by with_unfolding_all decide)
    (by with_unfolding_all decide) Phase.warmup
    (by with_unfolding_all decide)

/-- Claim C9: transient-failure semantics.  First conjunct (skip): when the
generation capability fails transiently for a respondent and the
consecutive-failure count stays within the threshold, the engine performs
exactly one retry (two capability calls), skips the respondent for the
round (no participant message, states untouched), appends one system-role
diagnostic message, and increments both the run-level transient counter and
the consecutive counter.  Second conjunct (abort): as soon as the
consecutive count exceeds the configured threshold, the run aborts,
keeping every already-recorded message and appending exactly one terminal
system message stating the abort reason.  Third conjunct: an aborted run
never continues (further question processing is the identity).  Fourth
conjunct: question processing only ever appends (no recorded message is
dropped).  Fifth conjunct: in the spec's scenario — a client that always
fails transiently, threshold 5 — the returned transcript ends with the
single terminal system message "aborted: generation unavailable". -/
theorem C9_transient_failure_semantics :
    (∀ (cfg : Config) (ph : Phase) (q : String) (p : Persona) (st : RunState)
        (round : List ℚ) (e : Persona × ParticipantState),
      st.aborted = false →
      st.pstates.find? (fun x => x.1.pid = p.pid) = some e →
      st.consecutiveFailures + 1 ≤ cfg.failureThreshold →
        (processRespondent cfg alwaysTransient ph q p (st, round)).1.messages
            = st.messages ++ [MsgData.at ⟨none, Role.system, ph,
                "transient failure: skipped " ++ p.pname, 0, none, none,
                false⟩ st.turn]
          ∧ (processRespondent cfg alwaysTransient ph q p
              (st, round)).1.transientCount = st.transientCount + 1
          ∧ (processRespondent cfg alwaysTransient ph q p
              (st, round)).1.consecutiveFailures = st.consecutiveFailures + 1
          ∧ (processRespondent cfg alwaysTransient ph q p
              (st, round)).1.callCount = st.callCount + 2
          ∧ (processRespondent cfg alwaysTransient ph q p
              (st, round)).1.aborted = false
          ∧ (processRespondent cfg alwaysTransient ph q p
              (st, round)).1.pstates = st.pstates
          ∧ (processRespondent cfg alwaysTransient ph q p (st, round)).2
              = round)
    ∧ (∀ (cfg : Config) (ph : Phase) (q : String) (p : Persona)
        (st : RunState) (round : List ℚ) (e : Persona × ParticipantState),
      st.aborted = false →
      st.pstates.find? (fun x => x.1.pid = p.pid) = some e →
      cfg.failureThreshold < st.consecutiveFailures + 1 →
        (processRespondent cfg alwaysTransient ph q p (st, round)).1.messages
            = st.messages
              ++ [MsgData.at ⟨none, Role.system, ph,
                    "transient failure: skipped " ++ p.pname, 0, none, none,
                    false⟩ st.turn,
                  MsgData.at ⟨none, Role.system, ph,
                    "aborted: generation unavailable", 0, none, none, false⟩
                    (st.turn + 1)]
          ∧ (processRespondent cfg alwaysTransient ph q p
              (st, round)).1.aborted = true
          ∧ (processRespondent cfg alwaysTransient ph q p (st, round)).2
              = round)
    ∧ (∀ (cfg : Config) (client : Client) (ph : Phase) (qIdx : Nat)
        (st : RunState), st.aborted = true →
          processQuestion cfg client ph qIdx st = st)
    ∧ (∀ (cfg : Config) (client : Client) (ph : Phase) (qIdx : Nat)
        (st : RunState),
          st.messages <+: (processQuestion cfg client ph qIdx st).messages)
    ∧ (((runSession alwaysTransient demoConfig 42).messages.map
          (fun m => (m.role, m.content))).getLast?
        = some (Role.system, "aborted: generation unavailable")
      ∧ ((runSession alwaysTransient demoConfig 42).messages.filter
          (fun m => m.content = "aborted: generation unavailable")).length
          = 1) := by
  refine ⟨?_, ?_, ?_, ?_, ?_, ?_⟩
  · intro cfg ph q p st round e hab hfind hle
    simp only [processRespondent]
    rw [if_neg (by simp [hab]), hfind]
    simp only [alwaysTransient]
    rw [if_neg (by simp [appendMsg]; omega)]
    exact ⟨rfl, rfl, rfl, rfl, hab, rfl, rfl⟩
  · intro cfg ph q p st round e hab hfind hlt
    simp only [processRespondent]
    rw [if_neg (by simp [hab]), hfind]
    simp only [alwaysTransient]
    rw [if_pos (by simp [appendMsg]; omega)]
    refine ⟨?_, rfl, rfl⟩
    simp [abortRun, appendMsg]
  · intro cfg client ph qIdx st hab
    simp only [processQuestion]
    rw [if_pos hab]
  · intro cfg client ph qIdx st
    exact Grows.messagesPrefix (grows_processQuestion cfg client ph qIdx st)
  · with_unfolding_all decide
  · with_unfolding_all decide

/-- Witness for C9's skip and abort conjuncts at a concrete state. -/
theorem C9_transient_failure_semantics_witness :
    (processRespondent demoConfig alwaysTransient Phase.warmup "q" wPersona
        (initState demoConfig 7, [])).1.messages
      = (initState demoConfig 7).messages
        ++ [MsgData.at ⟨none, Role.system, Phase.warmup,
            "transient failure: skipped " ++ wPersona.pname, 0, none, none,
            false⟩ (initState demoConfig 7).turn]
    ∧ (processRespondent demoConfig alwaysTransient Phase.warmup "q" wPersona
        (initState demoConfig 7, [])).1.transientCount
      = (initState demoConfig 7).transientCount + 1
    ∧ (processRespondent demoConfig alwaysTransient Phase.warmup "q" wPersona
        (initState demoConfig 7, [])).1.consecutiveFailures
      = (initState demoConfig 7).consecutiveFailures + 1
    ∧ (processRespondent demoConfig alwaysTransient Phase.warmup "q" wPersona
        (initState demoConfig 7, [])).1.callCount
      = (initState demoConfig 7).callCount + 2
    ∧ (processRespondent demoConfig alwaysTransient Phase.warmup "q" wPersona
        (initState demoConfig 7, [])).1.aborted = false
    ∧ (processRespondent demoConfig alwaysTransient Phase.warmup "q" wPersona
        (initState demoConfig 7, [])).1.pstates
      = (initState demoConfig 7).pstates
    ∧ (processRespondent demoConfig alwaysTransient Phase.warmup "q" wPersona
        (initState demoConfig 7, [])).2 = [] :=
  C9_transient_failure_semantics.1 demoConfig Phase.warmup "q" wPersona
    (initState demoConfig 7) [] (wPersona, initPState wPersona) rfl
    (by with_unfolding_all decide) (by with_unfolding_all decide)

/-! ## Survey submission endpoint
(`src/validation/survey/functions/api/submit.js`) -/

/-- A flat JSON object, the shallow model of a parsed request body. -/
abbrev JsonObj : Type := List (String × String)

/-- The response key can never collide with the counter key. -/
theorem response_key_ne (rid : String) :
    "response:" ++ rid ≠ "response_count" := by
  intro h
  have h2 : (("response:" ++ rid).data).take 9
      = ("response_count".data).take 9 :=
    congrArg (fun s : String => s.data.take 9) h
  have h3 : ("response:" ++ rid).data = "response:".data ++ rid.data := rfl
  have h4 : ("response:".data ++ rid.data).take 9 = "response:".data := by
    have h5 : "response:".data.length = 9 := by decide
    rw [← h5, List.take_left]
  rw [h3, h4] at h2
  exact absurd h2 (by decide)

/-- Deterministic serialization of a JSON object (the model of
`JSON.stringify`). -/
def encodeObj (o : JsonObj) : String :=
  o.foldl (fun acc e => acc ++ e.1 ++ "=" ++ e.2 ++ ";") ""

/-- The key-value store backing the endpoint (the `SURVEY_KV` binding):
later puts shadow earlier ones. -/
structure SurveyKV where
  entries : List (String × String)
  deriving DecidableEq, Repr

/-- Read a key (the model of `SURVEY_KV.get`). -/
def SurveyKV.get (kv : SurveyKV) (k : String) : Option String :=
  (kv.entries.find? (fun e => e.1 = k)).map (fun e => e.2)

/-- Write a key (the model of `SURVEY_KV.put`). -/
def SurveyKV.put (kv : SurveyKV) (k v : String) : SurveyKV :=
  ⟨(k, v) :: kv.entries⟩

/-- JavaScript `parseInt(s, 10)` restricted to plain digit strings: `none`
models `NaN`. -/
def parseIntJS (s : String) : Option Nat :=
  if s.data ≠ [] ∧ s.data.all (fun c => c.isDigit) then
    some (s.data.foldl (fun acc c => acc * 10 + (c.toNat - 48)) 0)
  else none

/-- JavaScript `countStr || '0'`: `null` and the empty string are falsy. -/
def orZero (v : Option String) : String :=
  match v with
  | none => "0"
  | some s => if s = "" then "0" else s

/-- `String(parseInt(countStr, 10) + 1)`: a non-numeric prior value turns
into the string `"NaN"`. -/
def bumpCount (countStr : String) : String :=
  match parseIntJS countStr with
  | some n => toString (n + 1)
  | none => "NaN"

/-- The HTTP response produced by the endpoint: status code and the
`{ok, id?, error?}` body fields. -/
structure HttpResponse where
  status : Nat
  ok : Bool
  id : Option String
  err : Option String
  deriving DecidableEq, Repr

/-- The survey submission endpoint, embedded from `onRequestPost` in
`src/validation/survey/functions/api/submit.js`.  `parseResult` is the
outcome of `request.json()` (`none` when the body is malformed and the call
throws), `ts` models `new Date().toISOString()`, `rid` models
`crypto.randomUUID()`, and `p1 g2 p2` say whether the first put, the
counter get and the counter put complete without throwing (a throwing
operation is modelled as having no effect).  Any throw lands in the catch
branch: HTTP 500 with `{ok: false, error}`; the happy path stores the
parsed object extended with `_server_ts` and `_id` under
`"response:" ++ rid`, rewrites `response_count`, and returns HTTP 200 with
`{ok: true, id}`. -/
def onRequestPost (parseResult : Option JsonObj) (ts rid : String)
    (p1 g2 p2 : Bool) (kv : SurveyKV) : HttpResponse × SurveyKV :=
  match parseResult with
  | none => (⟨500, false, none, some "invalid json"⟩, kv)
  | some data =>
    let extended := data ++ [("_server_ts", ts), ("_id", rid)]
    let key := "response:" ++ rid
    if p1 = false then (⟨500, false, none, some "kv put failed"⟩, kv)
    else
      let kv1 := kv.put key (encodeObj extended)
      if g2 = false then (⟨500, false, none, some "kv get failed"⟩, kv1)
      else
        let countStr := orZero (kv1.get "response_count")
        if p2 = false then (⟨500, false, none, some "kv put failed"⟩, kv1)
        else
          (⟨200, true, some rid, none⟩,
            kv1.put "response_count" (bumpCount countStr))

/-- Claim C10: the endpoint's result contract.  First conjunct: on the
happy path with a prior counter whose defaulted value parses as the integer
`n`, the endpoint returns HTTP 200 with `{ok: true, id}`, the extended
record is stored under `"response:" ++ id`, and `response_count` is
rewritten to `n + 1`.  Second conjunct: HTTP 200 is returned only on that
path (every step completed and the body parsed).  Third conjunct: any
throwing step yields HTTP 500 with `{ok: false}`.  Fourth conjunct: the
two KV writes are not atomic — there is an execution in which the response
record is stored while the counter is untouched and the client receives
500. -/
theorem C10_submit_contract :
    (∀ (data : JsonObj) (ts rid : String) (kv : SurveyKV) (n : Nat),
      parseIntJS (orZero (kv.get "response_count")) = some n →
        (onRequestPost (some data) ts rid true true true kv).1
            = ⟨200, true, some rid, none⟩
          ∧ (onRequestPost (some data) ts rid true true true kv).2.get
              ("response:" ++ rid)
            = some (encodeObj (data ++ [("_server_ts", ts), ("_id", rid)]))
          ∧ (onRequestPost (some data) ts rid true true true kv).2.get
              "response_count" = some (toString (n + 1)))
    ∧ (∀ (parseResult : Option JsonObj) (ts rid : String) (p1 g2 p2 : Bool)
        (kv : SurveyKV),
        (onRequestPost parseResult ts rid p1 g2 p2 kv).1.status = 200 →
          parseResult ≠ none ∧ p1 = true ∧ g2 = true ∧ p2 = true)
    ∧ (∀ (parseResult : Option JsonObj) (ts rid : String) (p1 g2 p2 : Bool)
        (kv : SurveyKV),
        (parseResult = none ∨ p1 = false ∨ g2 = false ∨ p2 = false) →
          (onRequestPost parseResult ts rid p1 g2 p2 kv).1.status = 500
            ∧ (onRequestPost parseResult ts rid p1 g2 p2 kv).1.ok = false)
    ∧ ((onRequestPost (some []) "t" "u" true false true ⟨[]⟩).2.get
          "response:u" = some (encodeObj [("_server_ts", "t"), ("_id", "u")])
        ∧ (onRequestPost (some []) "t" "u" true false true ⟨[]⟩).2.get
            "response_count" = none
        ∧ (onRequestPost (some []) "t" "u" true false true ⟨[]⟩).1.status
            = 500) := by
  refine ⟨?_, ?_, ?_, ?_⟩
  · intro data ts rid kv n hn
    have h1 := response_key_ne rid
    simp only [SurveyKV.get] at hn
    refine ⟨rfl, ?_, ?_⟩
    · simp [onRequestPost, SurveyKV.get, SurveyKV.put, List.find?_cons,
        h1, Ne.symm h1]
    · simp [onRequestPost, SurveyKV.get, SurveyKV.put, List.find?_cons,
        h1, Ne.symm h1, bumpCount, hn]
  · intro parseResult ts rid p1 g2 p2 kv h
    match parseResult with
    | none => exact absurd h (by simp [onRequestPost])
    | some data =>
      match p1, g2, p2 with
      | true, true, true => exact ⟨by simp, rfl, rfl, rfl⟩
      | false, _, _ => exact absurd h (by simp [onRequestPost])
      | true, false, _ => exact absurd h (by simp [onRequestPost])
      | true, true, false => exact absurd h (by simp [onRequestPost])
  · intro parseResult ts rid p1 g2 p2 kv h
    match parseResult, h with
    | none, _ => exact ⟨rfl, rfl⟩
    | some data, h =>
      match p1, g2, p2, h with
      | false, _, _, _ => exact ⟨by simp [onRequestPost], by simp [onRequestPost]⟩
      | true, false, _, _ =>
        exact ⟨by simp [onRequestPost], by simp [onRequestPost]⟩
      | true, true, false, _ =>
        exact ⟨by simp [onRequestPost], by simp [onRequestPost]⟩
      | true, true, true, h =>
        rcases h with h | h | h | h <;> simp at h
  · refine ⟨?_, ?_, rfl⟩
    · with_unfolding_all decide
    · with_unfolding_all decide

/-- Witness for C10's happy path at a concrete request, id, timestamp and
store. -/
theorem C10_submit_contract_witness :
    (onRequestPost (some [("answer", "yes")]) "t0" "id0" true true true
        ⟨[("response_count", "7")]⟩).1 = ⟨200, true, some "id0", none⟩
    ∧ (onRequestPost (some [("answer", "yes")]) "t0" "id0" true true true
        ⟨[("response_count", "7")]⟩).2.get "response:id0"
      = some (encodeObj
          [("answer", "yes"), ("_server_ts", "t0"), ("_id", "id0")])
    ∧ (onRequestPost (some [("answer", "yes")]) "t0" "id0" true true true
        ⟨[("response_count", "7")]⟩).2.get "response_count"
      = some (toString (7 + 1)) :=
  C10_submit_contract.1 [("answer", "yes")] "t0" "id0"
    ⟨[("response_count", "7")]⟩ 7 (by with_unfolding_all decide)

end SFG
